import Mathlib

/-!
Verification of the remote-list-fetch components of the Practical-React
repository: the manual `UseEff` component (useState + useEffect + try/catch,
`src/unnamed/part_000`) and the library-backed `RQuery` component
(`src/workplace/src/topics/rc-query/RQuery.tsx`).

The embedding models the component's hook state, the resolution of the
single `fetchTodos` call, the render function, and an event-trace semantics
for mount / unmount / fetch-resolution of one component instance.
-/

namespace PracticalReact

/-- A todo item as fetched from the endpoint (`interface Todo` in both
components): `userId`, `id`, `title`, `completed`. -/
structure Todo where
  userId : Nat
  id : Nat
  title : String
  completed : Bool
deriving DecidableEq, Repr

/-- The failure value a rejected fetch delivers (`AxiosError` in the source);
the components consume only its `message`. -/
structure FetchFailure where
  message : String
deriving DecidableEq, Repr

/-- Outcome of the awaited `axios.get`: the typed data on fulfilment, or a
raised failure on rejection. -/
abbrev FetchOutcome := Except FetchFailure (List Todo)

/-- The three `useState` cells of the `UseEff` component:
`todos`, `loading`, `error`. -/
structure UseEffState where
  todos : List Todo
  loading : Bool
  error : Option FetchFailure
deriving DecidableEq, Repr

/-- Initial hook values of `UseEff`:
`useState<Todo[]>([])`, `useState<boolean>(true)`, `useState<Error|null>(null)`. -/
def initUseEffState : UseEffState :=
  { todos := [], loading := true, error := none }

/-- Resolution of `UseEff.fetchTodos` applied to the component state: the
`try` branch stores the data and clears `loading`; the `catch` branch stores
the error and clears `loading`. No exception escapes: the function is total
into `UseEffState`. -/
def fetchTodos (s : UseEffState) : FetchOutcome → UseEffState
  | .ok data => { s with todos := data, loading := false }
  | .error err => { s with error := some err, loading := false }

/-- Abstract view state derived by the renderer: exactly one of
Loading / Error / Success. -/
inductive View where
  | loading
  | error (msg : String)
  | success (items : List Todo)
deriving DecidableEq, Repr

/-- The view `UseEff` derives from its state: the render branches first on
`loading`, then on `error`, else shows the todo list. -/
def useEffView (s : UseEffState) : View :=
  if s.loading then .loading
  else
    match s.error with
    | some e => .error e.message
    | none => .success s.todos

/-- One rendered list entry: the React `key` and the displayed text. -/
structure Entry where
  key : Nat
  text : String
deriving DecidableEq, Repr

/-- The rendered output of a component: the loading div, the error-message
div, or the section holding the mapped list entries. -/
inductive Rendered where
  | loadingDiv
  | errorDiv (msg : String)
  | listSection (entries : List Entry)
deriving DecidableEq, Repr

/-- The `UseEff` render function: `if (loading) ...`, `if (error) ...`, else
`todos.map((item, id) => <div key={id}>{item.title}</div>)` — the key is the
map index and the text is the title. -/
def useEffRender (s : UseEffState) : Rendered :=
  if s.loading then .loadingDiv
  else
    match s.error with
    | some e => .errorDiv e.message
    | none => .listSection (s.todos.enum.map fun p => ⟨p.1, p.2.title⟩)

/-- The `{data, error, isLoading}` record `useQuery` hands to `RQuery`. -/
structure QueryResult where
  data : Option (List Todo)
  error : Option FetchFailure
  isLoading : Bool
deriving DecidableEq, Repr

/-- Modelled from the spec: `useQuery` itself belongs to the external
fetching library (`@tanstack/react-query`), not to this repository. Per the
spec's collaborator contract it resolves to exactly one of `{data}` or
`{error}`, and `isLoading` is true until that resolution. The argument is
the current resolution state of the single fetch (`none` = unresolved). -/
def useQuery : Option FetchOutcome → QueryResult
  | none => { data := none, error := none, isLoading := true }
  | some (.ok d) => { data := some d, error := none, isLoading := false }
  | some (.error e) => { data := none, error := some e, isLoading := false }

/-- The view `RQuery` derives from the query result: branches on `isLoading`,
then on `error`, else shows `data` (`data?.map` renders nothing when `data`
is undefined, i.e. an empty list). -/
def rQueryView (q : QueryResult) : View :=
  if q.isLoading then .loading
  else
    match q.error with
    | some e => .error e.message
    | none => .success (q.data.getD [])

/-- The `RQuery` render function: `if (isLoading) ...`, `if (error) ...`,
else `data?.map((item, idx) => <div key={idx}>{item.id}) {item.title}</div>)`. -/
def rQueryRender (q : QueryResult) : Rendered :=
  if q.isLoading then .loadingDiv
  else
    match q.error with
    | some e => .errorDiv e.message
    | none =>
        .listSection ((q.data.getD []).enum.map fun p =>
          ⟨p.1, toString p.2.id ++ ") " ++ p.2.title⟩)

/-- `UseEff`'s hook state as a function of the resolution state of its single
fetch: initial values while unresolved, `fetchTodos`-updated once resolved. -/
def useEffStateOf : Option FetchOutcome → UseEffState
  | none => initUseEffState
  | some r => fetchTodos initUseEffState r

/-! ### Event-trace semantics of one `UseEff` component instance -/

/-- Lifecycle events of one component instance: activation (mount), which
runs the `useEffect` with empty dependency array and so starts the fetch;
deactivation (unmount); and the resolution of the in-flight fetch. -/
inductive Event where
  | mount
  | unmount
  | resolve (r : FetchOutcome)

/-- Runtime state of one component instance: whether it is mounted, its hook
state, whether a fetch is in flight, and how many fetch calls were issued. -/
structure InstState where
  mounted : Bool
  st : UseEffState
  inFlight : Bool
  fetchCount : Nat
deriving DecidableEq, Repr

/-- Before any activation: unmounted, initial hook values, no fetch issued. -/
def initInst : InstState :=
  { mounted := false, st := initUseEffState, inFlight := false, fetchCount := 0 }

/-- One step of the instance. Mounting installs fresh hook state and the
effect issues one fetch (`useEffect(..., [])` runs once per mount).
Unmounting does not cancel the in-flight fetch (the source has no cleanup).
A resolution applies `fetchTodos` to the state when the instance is still
mounted; on an unmounted instance the state setters are no-ops, so the
resolution is ignored. -/
def step (s : InstState) : Event → InstState
  | .mount =>
      { mounted := true, st := initUseEffState, inFlight := true,
        fetchCount := s.fetchCount + 1 }
  | .unmount => { s with mounted := false }
  | .resolve r =>
      if s.mounted then
        { mounted := true, st := fetchTodos s.st r, inFlight := false,
          fetchCount := s.fetchCount }
      else
        { s with inFlight := false }

/-- Run a list of events. -/
def runEvents (s : InstState) : List Event → InstState
  | [] => s
  | e :: es => runEvents (step s e) es

/-- The hook states along a run, starting state included. -/
def stsAlong (s : InstState) : List Event → List UseEffState
  | [] => [s.st]
  | e :: es => s.st :: stsAlong (step s e) es

/-- The derived views along a run. -/
def viewsAlong (s : InstState) (es : List Event) : List View :=
  (stsAlong s es).map useEffView

/-- The rendered outputs along a run. -/
def rendersAlong (s : InstState) (es : List Event) : List Rendered :=
  (stsAlong s es).map useEffRender

/-- Is the event a mount? -/
def isMount : Event → Bool
  | .mount => true
  | _ => false

/-- Is the event a fetch resolution? -/
def isResolve : Event → Bool
  | .resolve _ => true
  | _ => false

/-- No mount event occurs in the list (the list stays within one attempt). -/
def mountFree (es : List Event) : Bool :=
  es.all fun e => !isMount e

/-- How many fetch resolutions the list contains. A well-formed attempt has
at most one: only one fetch is issued per activation. -/
def resolveCount (es : List Event) : Nat :=
  (es.filter isResolve).length

/-- Sample item used to instantiate universally quantified theorems. -/
def todoA : Todo := { userId := 1, id := 1, title := "A", completed := false }

/-- Second sample item. -/
def todoB : Todo := { userId := 1, id := 2, title := "B", completed := true }

/-! ### Claims without trace hypotheses -/

/-- C1: if the instance deactivates (unmount) while the fetch is in flight,
the late resolution mutates no hook state, changes no fetch count, and
produces no visible update: the rendered output is unchanged and the step
function is total, so nothing crashes. -/
theorem unmount_then_resolve_ignored (s : InstState) (r : FetchOutcome) :
    (step (step s .unmount) (.resolve r)).st = (step s .unmount).st ∧
    (step (step s .unmount) (.resolve r)).fetchCount = (step s .unmount).fetchCount ∧
    (step (step s .unmount) (.resolve r)).mounted = false ∧
    useEffRender (step (step s .unmount) (.resolve r)).st =
      useEffRender (step s .unmount).st := by
  simp [step]

/-- The texts of the entries built from an enumerated list are the mapped
texts of the list, in order. -/
theorem enum_entries_text (f : Todo → String) (l : List Todo) :
    (l.enum.map fun p => (⟨p.1, f p.2⟩ : Entry)).map Entry.text = l.map f := by
  rw [List.map_map]
  have h : (Entry.text ∘ fun p : Nat × Todo => (⟨p.1, f p.2⟩ : Entry))
      = f ∘ Prod.snd := rfl
  rw [h, ← List.map_map, List.enum_map_snd]

/-- The keys of the entries built from an enumerated list are the indices
0 to length-1, hence pairwise distinct. -/
theorem enum_entries_key (f : Todo → String) (l : List Todo) :
    (l.enum.map fun p => (⟨p.1, f p.2⟩ : Entry)).map Entry.key
      = List.range l.length := by
  rw [List.map_map]
  have h : (Entry.key ∘ fun p : Nat × Todo => (⟨p.1, f p.2⟩ : Entry))
      = Prod.fst := rfl
  rw [h, List.enum_map_fst]

/-- C3: a successful fetch of a list `data` renders, in both components, a
list section with exactly `data.length` entries, whose texts appear in the
order the fetcher returned the items, and whose keys (the map indices) are
pairwise distinct. -/
theorem success_renders_all_items (data : List Todo) :
    (∃ entries,
      useEffRender (fetchTodos initUseEffState (Except.ok data)) =
        Rendered.listSection entries ∧
      entries.length = data.length ∧
      entries.map Entry.text = data.map Todo.title ∧
      (entries.map Entry.key).Nodup) ∧
    (∃ entries,
      rQueryRender (useQuery (some (Except.ok data))) =
        Rendered.listSection entries ∧
      entries.length = data.length ∧
      entries.map Entry.text = data.map (fun t => toString t.id ++ ") " ++ t.title) ∧
      (entries.map Entry.key).Nodup) := by
  constructor
  · refine ⟨data.enum.map fun p => ⟨p.1, p.2.title⟩, ?_, ?_, ?_, ?_⟩
    · simp [useEffRender, fetchTodos, initUseEffState]
    · simp [List.enum_length]
    · exact enum_entries_text Todo.title data
    · rw [enum_entries_key Todo.title data]
      exact List.nodup_range data.length
  · refine ⟨data.enum.map fun p => ⟨p.1, toString p.2.id ++ ") " ++ p.2.title⟩,
      ?_, ?_, ?_, ?_⟩
    · simp [rQueryRender, useQuery]
    · simp [List.enum_length]
    · exact enum_entries_text (fun t => toString t.id ++ ") " ++ t.title) data
    · rw [enum_entries_key (fun t => toString t.id ++ ") " ++ t.title) data]
      exact List.nodup_range data.length

/-- C6: re-activating the instance resets the hook state to the initial
values (view `Loading`, empty todo list: no data from a prior attempt
survives) and issues exactly one new fetch; neither an unmount nor a
resolution issues a fetch. -/
theorem remount_resets_and_fetches_once (s : InstState) :
    (step s .mount).st = initUseEffState ∧
    useEffView (step s .mount).st = View.loading ∧
    (step s .mount).st.todos = [] ∧
    (step s .mount).fetchCount = s.fetchCount + 1 ∧
    (∀ t : InstState, (step t .unmount).fetchCount = t.fetchCount) ∧
    (∀ (t : InstState) (r : FetchOutcome),
      (step t (.resolve r)).fetchCount = t.fetchCount) := by
  refine ⟨rfl, rfl, rfl, rfl, fun t => rfl, fun t r => ?_⟩
  simp only [step]
  by_cases h : t.mounted <;> simp [h]

/-- C7: upon activation the machine enters `Loading` with one fetch issued,
and the resolution of that single call moves it to `Success` with the data
on fulfilment and to `Error` with the failure's message on rejection, with
no further fetch issued. -/
theorem activation_loading_then_outcome (s : InstState) (d : List Todo)
    (err : FetchFailure) :
    useEffView (step s .mount).st = View.loading ∧
    (step s .mount).inFlight = true ∧
    (step s .mount).fetchCount = s.fetchCount + 1 ∧
    useEffView (step (step s .mount) (.resolve (Except.ok d))).st =
      View.success d ∧
    useEffView (step (step s .mount) (.resolve (Except.error err))).st =
      View.error err.message ∧
    (step (step s .mount) (.resolve (Except.ok d))).fetchCount =
      s.fetchCount + 1 := by
  refine ⟨rfl, rfl, rfl, ?_, ?_, ?_⟩ <;>
    simp [step, fetchTodos, useEffView, initUseEffState]

/-- C8: a failing fetch is caught at the fetcher boundary and surfaced to the
state machine as data: `fetchTodos` maps the rejection to a normal state
whose `error` field carries the failure (no exception leaves the component),
and both renderers branch on it declaratively. -/
theorem failure_caught_as_data (s : UseEffState) (err : FetchFailure) :
    (fetchTodos s (Except.error err)).error = some err ∧
    (fetchTodos s (Except.error err)).loading = false ∧
    useEffRender (fetchTodos initUseEffState (Except.error err)) =
      Rendered.errorDiv err.message ∧
    rQueryView (useQuery (some (Except.error err))) = View.error err.message := by
  refine ⟨rfl, rfl, ?_, rfl⟩
  simp [useEffRender, fetchTodos, initUseEffState]

/-- C9: for every fetch resolution state (pending, fulfilled with a list, or
rejected with a failure), the manual `UseEff` component and the
library-backed `RQuery` component derive the same abstract view state with
the same carried data. -/
theorem useEff_rQuery_view_equiv (r : Option FetchOutcome) :
    useEffView (useEffStateOf r) = rQueryView (useQuery r) := by
  match r with
  | none => rfl
  | some (.ok d) => rfl
  | some (.error e) => rfl

/-! ### Trace lemmas for the per-attempt claims -/

/-- `mountFree` distributes over cons. -/
theorem mountFree_cons (e : Event) (es : List Event) :
    mountFree (e :: es) = (!isMount e && mountFree es) := by
  simp [mountFree]

/-- `mountFree` distributes over append. -/
theorem mountFree_append (es1 es2 : List Event) :
    mountFree (es1 ++ es2) = (mountFree es1 && mountFree es2) := by
  simp [mountFree, List.all_append]

/-- `resolveCount` on a cons. -/
theorem resolveCount_cons (e : Event) (es : List Event) :
    resolveCount (e :: es) = (if isResolve e then 1 else 0) + resolveCount es := by
  simp only [resolveCount, List.filter_cons]
  split <;> simp [Nat.add_comm]

/-- `resolveCount` distributes over append. -/
theorem resolveCount_append (es1 es2 : List Event) :
    resolveCount (es1 ++ es2) = resolveCount es1 + resolveCount es2 := by
  simp [resolveCount, List.filter_append]

/-- Running an appended event list is running the parts in sequence. -/
theorem runEvents_append (s : InstState) (es1 es2 : List Event) :
    runEvents s (es1 ++ es2) = runEvents (runEvents s es1) es2 := by
  induction es1 generalizing s with
  | nil => rfl
  | cons e es ih => simp [runEvents, ih]

/-- The hook-state trace of an appended run splits at the intermediate
instance state. -/
theorem stsAlong_append (s : InstState) (es1 es2 : List Event) :
    stsAlong s (es1 ++ es2) =
      stsAlong s es1 ++ (stsAlong (runEvents s es1) es2).tail := by
  induction es1 generalizing s with
  | nil => cases es2 <;> simp [stsAlong, runEvents]
  | cons e es ih => simp [stsAlong, runEvents, ih]

/-- A run without mounts and without resolutions leaves the hook state
untouched. -/
theorem runEvents_quiet_st (es : List Event) (hm : mountFree es = true)
    (hr : resolveCount es = 0) (s : InstState) :
    (runEvents s es).st = s.st := by
  induction es generalizing s with
  | nil => rfl
  | cons e es ih =>
      rw [mountFree_cons] at hm
      rw [resolveCount_cons] at hr
      cases e with
      | mount => simp [isMount] at hm
      | resolve r => simp [isResolve] at hr
      | unmount =>
          simp only [isMount, Bool.not_false, Bool.true_and] at hm
          simp only [isResolve, Bool.false_eq_true, if_false, Nat.zero_add] at hr
          rw [runEvents]
          rw [ih hm hr]
          rfl

/-- Along a run without mounts and without resolutions, the hook state is
constant. -/
theorem stsAlong_quiet (es : List Event) (hm : mountFree es = true)
    (hr : resolveCount es = 0) (s : InstState) :
    stsAlong s es = List.replicate (es.length + 1) s.st := by
  induction es generalizing s with
  | nil => rfl
  | cons e es ih =>
      rw [mountFree_cons] at hm
      rw [resolveCount_cons] at hr
      cases e with
      | mount => simp [isMount] at hm
      | resolve r => simp [isResolve] at hr
      | unmount =>
          simp only [isMount, Bool.not_false, Bool.true_and] at hm
          simp only [isResolve, Bool.false_eq_true, if_false, Nat.zero_add] at hr
          rw [stsAlong, ih hm hr]
          rfl

/-- An event list with at most one resolution is resolution-free or splits
around its unique resolution. -/
theorem resolve_decomp (es : List Event) (h : resolveCount es ≤ 1) :
    resolveCount es = 0 ∨
      ∃ es1 r es2, es = es1 ++ Event.resolve r :: es2 ∧
        resolveCount es1 = 0 ∧ resolveCount es2 = 0 := by
  induction es with
  | nil => left; rfl
  | cons e es ih =>
      rw [resolveCount_cons] at h
      cases e with
      | resolve r =>
          right
          refine ⟨[], r, es, rfl, rfl, ?_⟩
          simp only [isResolve, if_pos] at h
          omega
      | mount =>
          simp only [isResolve, Bool.false_eq_true, if_false, Nat.zero_add] at h
          rcases ih h with h0 | ⟨es1, r, es2, heq, h1, h2⟩
          · left
            rw [resolveCount_cons, h0]
            simp [isResolve]
          · right
            exact ⟨Event.mount :: es1, r, es2, by simp [heq],
              by rw [resolveCount_cons, h1]; simp [isResolve], h2⟩
      | unmount =>
          simp only [isResolve, Bool.false_eq_true, if_false, Nat.zero_add] at h
          rcases ih h with h0 | ⟨es1, r, es2, heq, h1, h2⟩
          · left
            rw [resolveCount_cons, h0]
            simp [isResolve]
          · right
            exact ⟨Event.unmount :: es1, r, es2, by simp [heq],
              by rw [resolveCount_cons, h1]; simp [isResolve], h2⟩

/-- A resolution on a mounted instance applies `fetchTodos` to the state. -/
theorem step_resolve_mounted (t : InstState) (r : FetchOutcome)
    (h : t.mounted = true) :
    (step t (.resolve r)).st = fetchTodos t.st r := by
  simp [step, h]

/-- A resolution on an unmounted instance leaves the hook state unchanged. -/
theorem step_resolve_unmounted (t : InstState) (r : FetchOutcome)
    (h : t.mounted = false) :
    (step t (.resolve r)).st = t.st := by
  simp [step, h]

/-- Hook states along a mounted attempt whose single resolution is `r`: the
initial values up to the resolution, then the `fetchTodos`-updated state. -/
theorem attempt_sts_resolved (s : InstState) (es1 : List Event)
    (r : FetchOutcome) (es2 : List Event)
    (hm1 : mountFree es1 = true) (hr1 : resolveCount es1 = 0)
    (hm2 : mountFree es2 = true) (hr2 : resolveCount es2 = 0)
    (hmt : (runEvents (step s .mount) es1).mounted = true) :
    stsAlong (step s .mount) (es1 ++ Event.resolve r :: es2) =
      List.replicate (es1.length + 1) initUseEffState ++
        List.replicate (es2.length + 1) (fetchTodos initUseEffState r) := by
  have hs1 : (runEvents (step s .mount) es1).st = initUseEffState := by
    rw [runEvents_quiet_st es1 hm1 hr1]
    rfl
  have hstep2 : (step (runEvents (step s .mount) es1) (.resolve r)).st =
      fetchTodos initUseEffState r := by
    rw [step_resolve_mounted _ r hmt, hs1]
  rw [stsAlong_append]
  rw [stsAlong_quiet es1 hm1 hr1]
  rw [show stsAlong (runEvents (step s .mount) es1) (Event.resolve r :: es2) =
      (runEvents (step s .mount) es1).st ::
        stsAlong (step (runEvents (step s .mount) es1) (.resolve r)) es2 from rfl]
  rw [stsAlong_quiet es2 hm2 hr2, hstep2]
  rfl

/-- Hook states along an attempt that was unmounted before its resolution:
the initial values throughout, since the late resolution is ignored. -/
theorem attempt_sts_unmounted (s : InstState) (es1 : List Event)
    (r : FetchOutcome) (es2 : List Event)
    (hm1 : mountFree es1 = true) (hr1 : resolveCount es1 = 0)
    (hm2 : mountFree es2 = true) (hr2 : resolveCount es2 = 0)
    (hmt : (runEvents (step s .mount) es1).mounted = false) :
    stsAlong (step s .mount) (es1 ++ Event.resolve r :: es2) =
      List.replicate (es1.length + es2.length + 2) initUseEffState := by
  have hs1 : (runEvents (step s .mount) es1).st = initUseEffState := by
    rw [runEvents_quiet_st es1 hm1 hr1]
    rfl
  have hstep2 : (step (runEvents (step s .mount) es1) (.resolve r)).st =
      initUseEffState := by
    rw [step_resolve_unmounted _ r hmt, hs1]
  rw [stsAlong_append]
  rw [stsAlong_quiet es1 hm1 hr1]
  rw [show stsAlong (runEvents (step s .mount) es1) (Event.resolve r :: es2) =
      (runEvents (step s .mount) es1).st ::
        stsAlong (step (runEvents (step s .mount) es1) (.resolve r)) es2 from rfl]
  rw [stsAlong_quiet es2 hm2 hr2, hstep2]
  show List.replicate (es1.length + 1) initUseEffState ++
      List.replicate (es2.length + 1) initUseEffState =
    List.replicate (es1.length + es2.length + 2) initUseEffState
  rw [← List.replicate_add]
  congr 1
  omega

/-- Canonical shape of the hook states along one attempt: a block of initial
(Loading) states, optionally followed by a block of one constant resolved
state. -/
theorem attempt_canonical (s : InstState) (es : List Event)
    (hm : mountFree es = true) (hr : resolveCount es ≤ 1) :
    (∃ n, stsAlong (step s .mount) es = List.replicate (n + 1) initUseEffState) ∨
      ∃ n1 n2 r, stsAlong (step s .mount) es =
        List.replicate (n1 + 1) initUseEffState ++
          List.replicate (n2 + 1) (fetchTodos initUseEffState r) := by
  rcases resolve_decomp es hr with h0 | ⟨es1, r, es2, heq, h1, h2⟩
  · left
    exact ⟨es.length, by rw [stsAlong_quiet es hm h0]; rfl⟩
  · subst heq
    rw [mountFree_append, mountFree_cons] at hm
    simp only [isMount, Bool.not_false, Bool.true_and, Bool.and_eq_true] at hm
    by_cases hmt : (runEvents (step s .mount) es1).mounted = true
    · right
      exact ⟨es1.length, es2.length, r,
        attempt_sts_resolved s es1 r es2 hm.1 h1 hm.2 h2 hmt⟩
    · left
      refine ⟨es1.length + es2.length + 1, ?_⟩
      rw [attempt_sts_unmounted s es1 r es2 hm.1 h1 hm.2 h2
        (by revert hmt; cases (runEvents (step s .mount) es1).mounted <;> simp)]

/-- The first state along any run is the starting state's hook state. -/
theorem stsAlong_head (s : InstState) (es : List Event) :
    (stsAlong s es).head? = some s.st := by
  cases es <;> rfl

/-- C2: on every attempt (a mount followed by mount-free events with at most
one resolution, since only one fetch is issued) the derived view is
`Loading` first, and the attempt never visits both a `Success` view and an
`Error` view. -/
theorem attempt_loading_first_one_terminal (s : InstState) (es : List Event)
    (hm : mountFree es = true) (hr : resolveCount es ≤ 1) :
    (viewsAlong (step s .mount) es).head? = some View.loading ∧
    ∀ d m, ¬(View.success d ∈ viewsAlong (step s .mount) es ∧
        View.error m ∈ viewsAlong (step s .mount) es) := by
  constructor
  · rw [viewsAlong]
    cases es <;> rfl
  · intro d m ⟨hsucc, herr⟩
    rcases attempt_canonical s es hm hr with ⟨n, hcan⟩ | ⟨n1, n2, r, hcan⟩
    · rw [viewsAlong, hcan] at hsucc
      simp [List.map_replicate, List.eq_of_mem_replicate, useEffView,
        initUseEffState] at hsucc
    · rw [viewsAlong, hcan] at hsucc herr
      simp only [List.map_append, List.map_replicate, List.mem_append,
        List.mem_replicate] at hsucc herr
      have hs : View.success d = useEffView (fetchTodos initUseEffState r) := by
        rcases hsucc with ⟨_, h⟩ | ⟨_, h⟩
        · exact absurd h (by simp [useEffView, initUseEffState])
        · exact h
      have he : View.error m = useEffView (fetchTodos initUseEffState r) := by
        rcases herr with ⟨_, h⟩ | ⟨_, h⟩
        · exact absurd h (by simp [useEffView, initUseEffState])
        · exact h
      rw [← hs] at he
      exact View.noConfusion he

/-- C2 witness: a concrete successful attempt. -/
theorem attempt_loading_first_one_terminal_witness :
    ¬(View.success [todoA] ∈
        viewsAlong (step initInst .mount) [Event.resolve (Except.ok [todoA])] ∧
      View.error "x" ∈
        viewsAlong (step initInst .mount) [Event.resolve (Except.ok [todoA])]) :=
  (attempt_loading_first_one_terminal initInst [Event.resolve (Except.ok [todoA])]
    (by decide) (by decide)).2 [todoA] "x"

/-- C5: the derived view is always exactly one of Loading, Error, Success,
and along any attempt the view trace is a block of `Loading` followed by one
constant block — transitions are monotonic, a terminal view is never
reversed within the attempt. -/
theorem view_exclusive_and_monotonic :
    (∀ st : UseEffState,
      (useEffView st = View.loading ∨ (∃ m, useEffView st = View.error m) ∨
        (∃ d, useEffView st = View.success d)) ∧
      ¬(useEffView st = View.loading ∧ ∃ m, useEffView st = View.error m) ∧
      ¬(useEffView st = View.loading ∧ ∃ d, useEffView st = View.success d) ∧
      ¬((∃ m, useEffView st = View.error m) ∧
        ∃ d, useEffView st = View.success d)) ∧
    (∀ (s : InstState) (es : List Event),
      mountFree es = true → resolveCount es ≤ 1 →
      ∃ n1 n2 v, viewsAlong (step s .mount) es =
        List.replicate n1 View.loading ++ List.replicate n2 v) := by
  constructor
  · intro st
    rcases h : useEffView st with _ | m | d <;> simp [h]
  · intro s es hm hr
    rcases attempt_canonical s es hm hr with ⟨n, hcan⟩ | ⟨n1, n2, r, hcan⟩
    · refine ⟨n + 1, 0, View.loading, ?_⟩
      rw [viewsAlong, hcan]
      simp [List.map_replicate, useEffView, initUseEffState]
    · refine ⟨n1 + 1, n2 + 1, useEffView (fetchTodos initUseEffState r), ?_⟩
      rw [viewsAlong, hcan]
      simp [List.map_append, List.map_replicate, useEffView, initUseEffState]

/-- C5 witness: a concrete failing attempt. -/
theorem view_exclusive_and_monotonic_witness :
    ∃ n1 n2 v,
      viewsAlong (step initInst .mount)
          [Event.resolve (Except.error { message := "boom" })] =
        List.replicate n1 View.loading ++ List.replicate n2 v :=
  view_exclusive_and_monotonic.2 initInst
    [Event.resolve (Except.error { message := "boom" })] (by decide) (by decide)

/-- C4: on a mounted attempt whose single resolution is a failure, the final
view is `Error` carrying exactly the failure's message (non-empty whenever
the fetcher delivered a non-empty message, which is what gets rendered), the
final view is never `Success` with any data, and no list section is rendered
at any point of the attempt. -/
theorem failing_attempt_error_terminal (s : InstState) (err : FetchFailure)
    (es1 es2 : List Event)
    (hm1 : mountFree es1 = true) (hr1 : resolveCount es1 = 0)
    (hm2 : mountFree es2 = true) (hr2 : resolveCount es2 = 0)
    (hmt : (runEvents (step s .mount) es1).mounted = true) :
    useEffView (runEvents (step s .mount)
        (es1 ++ Event.resolve (Except.error err) :: es2)).st =
      View.error err.message ∧
    (err.message ≠ "" → ∃ m,
      useEffRender (runEvents (step s .mount)
          (es1 ++ Event.resolve (Except.error err) :: es2)).st =
        Rendered.errorDiv m ∧ m ≠ "") ∧
    (∀ d, useEffView (runEvents (step s .mount)
        (es1 ++ Event.resolve (Except.error err) :: es2)).st ≠
      View.success d) ∧
    (∀ entries, Rendered.listSection entries ∉
      rendersAlong (step s .mount)
        (es1 ++ Event.resolve (Except.error err) :: es2)) := by
  have hfinal : (runEvents (step s .mount)
      (es1 ++ Event.resolve (Except.error err) :: es2)).st =
      { todos := [], loading := false, error := some err } := by
    rw [runEvents_append]
    rw [show runEvents (runEvents (step s .mount) es1)
        (Event.resolve (Except.error err) :: es2) =
      runEvents (step (runEvents (step s .mount) es1)
        (.resolve (Except.error err))) es2 from rfl]
    rw [runEvents_quiet_st es2 hm2 hr2]
    rw [step_resolve_mounted _ _ hmt, runEvents_quiet_st es1 hm1 hr1]
    rfl
  refine ⟨?_, ?_, ?_, ?_⟩
  · rw [hfinal]; rfl
  · intro hne
    refine ⟨err.message, ?_, hne⟩
    rw [hfinal]; rfl
  · intro d
    rw [hfinal]
    simp [useEffView]
  · intro entries hmem
    rw [rendersAlong,
      attempt_sts_resolved s es1 (Except.error err) es2 hm1 hr1 hm2 hr2 hmt]
      at hmem
    simp only [List.map_append, List.map_replicate, List.mem_append,
      List.mem_replicate] at hmem
    rcases hmem with ⟨_, h⟩ | ⟨_, h⟩
    · exact absurd h.symm (by simp [useEffRender, initUseEffState])
    · exact absurd h.symm (by simp [useEffRender, fetchTodos, initUseEffState])

/-- C4 witness: a concrete failing attempt with a transport-error message. -/
theorem failing_attempt_error_terminal_witness :
    useEffView (runEvents (step initInst .mount)
        ([] ++ Event.resolve (Except.error { message := "Network Error" }) :: [])).st =
      View.error "Network Error" :=
  (failing_attempt_error_terminal initInst { message := "Network Error" } [] []
    (by decide) (by decide) (by decide) (by decide) (by decide)).1

/-- C10: the catch branch of `fetchTodos` touches only the `error` and
`loading` cells: the `todos` cell is unchanged, so a failed attempt started
from the initial state stores no items at all. -/
theorem error_branch_leaves_todos (s : UseEffState) (err : FetchFailure) :
    (fetchTodos s (Except.error err)).todos = s.todos ∧
    fetchTodos initUseEffState (Except.error err) =
      { todos := [], loading := false, error := some err } := by
  exact ⟨rfl, rfl⟩

end PracticalReact
